import Mathlib

/-!
Shallow embedding of the Maxus T90 EV vehicle decoder
(`vehicle_maxt90.h` / `vehicle_maxt90.cpp`, class `OvmsVehicleMaxt90`).

The decoder consumes CAN frames on CAN1 (`IncomingFrameCan1`) and OBD-II
poll replies (`IncomingPollReply`) and writes OVMS metrics.  Float values
of the C++ code are modelled as exact rationals; `uint8_t` payload bytes as
naturals reduced mod 256; metric `SetValue` calls as prepends to a write
log together with an update of the current metric value.  The mutable
per-instance state (`m_ac_voltage`, `m_ac_current`, the poll state, the
static lock debounce byte `last_state`) is carried explicitly.
-/

/-- A metric write performed by the decoder (one `SetValue` call). -/
inductive Write where
  | handbrake (b : Bool)
  | locked (b : Bool)
  | chargeVoltage (v : ℚ)
  | chargeCurrent (v : ℚ)
  | chargePower (v : ℚ)
  | odometer (v : ℚ)
  | soc (v : ℚ)
  | soh (v : ℚ)
  | batCapacity (v : ℚ)
  | envOn (b : Bool)
  | chargePilot (b : Bool)
  | hvacTemp (v : ℚ)
  | envTemp (v : ℚ)
  | vin (bytes : List ℕ)
deriving DecidableEq, Repr

/-- Decoder state: the cached line values and poll state owned by the
module, the current value of every metric it touches, and the log of all
metric writes since construction (most recent first). -/
structure St where
  ac_voltage : ℚ
  ac_current : ℚ
  poll_state : ℕ
  last_state : ℕ
  m_handbrake : Bool
  m_locked : Bool
  m_charge_voltage : ℚ
  m_charge_current : ℚ
  m_charge_power : ℚ
  m_odometer : ℚ
  m_soc : ℚ
  m_soh : ℚ
  m_bat_capacity : ℚ
  m_env_on : Bool
  m_charge_pilot : Bool
  m_hvac_temp : ℚ
  m_env_temp : ℚ
  m_vin : List ℕ
  m_pack_capacity : ℚ
  log : List Write
deriving DecidableEq, Repr

/-- State after the constructor `OvmsVehicleMaxt90::OvmsVehicleMaxt90`:
caches zeroed, poll state 0, lock debounce byte 0, nominal pack capacity
88.5 kWh seeded into both the custom capacity metric and
`ms_v_bat_capacity`; the write log starts empty. -/
def initSt : St where
  ac_voltage := 0
  ac_current := 0
  poll_state := 0
  last_state := 0
  m_handbrake := false
  m_locked := false
  m_charge_voltage := 0
  m_charge_current := 0
  m_charge_power := 0
  m_odometer := 0
  m_soc := 0
  m_soh := 0
  m_bat_capacity := 177/2
  m_env_on := false
  m_charge_pilot := false
  m_hvac_temp := 0
  m_env_temp := 0
  m_vin := []
  m_pack_capacity := 177/2
  log := []

/-- Read payload byte `i` of the fixed 8-byte frame buffer (`d[i]`,
a `uint8_t`, hence mod 256; absent positions read as 0). -/
def byteAt (l : List ℕ) (i : ℕ) : ℕ := l.getD i 0 % 256

/-- Big-endian 16-bit helper `u16be`: `(p[0] << 8) | p[1]`. -/
def u16be (p0 p1 : ℕ) : ℕ := p0 * 256 + p1

/-- Little-endian 24-bit helper `u24le`: `p[0] | (p[1] << 8) | (p[2] << 16)`. -/
def u24le (p0 p1 p2 : ℕ) : ℕ := p0 + p1 * 256 + p2 * 65536

/-- A CAN frame as delivered to `IncomingFrameCan1`: message id, declared
data length (DLC), and the fixed 8-byte data buffer `data.u8` (whose
contents are not constrained by the DLC). -/
structure CANFrame where
  msgId : ℕ
  dlc : ℕ
  data : List ℕ
deriving DecidableEq, Repr

/-- One input event: a CAN1 frame or a reassembled poll reply
(PID plus payload buffer; its `length` argument is the buffer length). -/
inductive Event where
  | can (f : CANFrame)
  | poll (pid : ℕ) (data : List ℕ)
deriving DecidableEq, Repr

def setHandbrake (s : St) (b : Bool) : St :=
  { s with m_handbrake := b, log := Write.handbrake b :: s.log }

def setLocked (s : St) (b : Bool) : St :=
  { s with m_locked := b, log := Write.locked b :: s.log }

def setChargeVoltage (s : St) (v : ℚ) : St :=
  { s with m_charge_voltage := v, log := Write.chargeVoltage v :: s.log }

def setChargeCurrent (s : St) (v : ℚ) : St :=
  { s with m_charge_current := v, log := Write.chargeCurrent v :: s.log }

def setChargePower (s : St) (v : ℚ) : St :=
  { s with m_charge_power := v, log := Write.chargePower v :: s.log }

def setOdometer (s : St) (v : ℚ) : St :=
  { s with m_odometer := v, log := Write.odometer v :: s.log }

def setSoc (s : St) (v : ℚ) : St :=
  { s with m_soc := v, log := Write.soc v :: s.log }

def setSoh (s : St) (v : ℚ) : St :=
  { s with m_soh := v, log := Write.soh v :: s.log }

def setBatCapacity (s : St) (v : ℚ) : St :=
  { s with m_bat_capacity := v, log := Write.batCapacity v :: s.log }

def setEnvOn (s : St) (b : Bool) : St :=
  { s with m_env_on := b, log := Write.envOn b :: s.log }

def setChargePilot (s : St) (b : Bool) : St :=
  { s with m_charge_pilot := b, log := Write.chargePilot b :: s.log }

def setHvacTemp (s : St) (v : ℚ) : St :=
  { s with m_hvac_temp := v, log := Write.hvacTemp v :: s.log }

def setEnvTemp (s : St) (v : ℚ) : St :=
  { s with m_env_temp := v, log := Write.envTemp v :: s.log }

def setVin (s : St) (bytes : List ℕ) : St :=
  { s with m_vin := bytes, log := Write.vin bytes :: s.log }

/-- Raw big-endian 16-bit value of payload bytes 0..1 of a frame. -/
def vRaw (f : CANFrame) : ℕ := u16be (byteAt f.data 0) (byteAt f.data 1)

/-- Decoded AC voltage of a 0x362 frame: `raw / 100.0f` Volts. -/
def vVolt (f : CANFrame) : ℚ := (vRaw f : ℚ) / 100

/-- Decoded AC current of a 0x373 frame: `raw / 164.0f` Amps. -/
def aAmp (f : CANFrame) : ℚ := (vRaw f : ℚ) / 164

/-- Case 0x266 of `IncomingFrameCan1`: parking brake from bit 0 of
byte 2, guarded by `DLC < 3`. -/
def handle266 (s : St) (f : CANFrame) : St :=
  if f.dlc < 3 then s
  else setHandbrake s (byteAt f.data 2 % 2 = 1)

/-- Case 0x281 of `IncomingFrameCan1`: lock state from byte 1, debounced
against the static `last_state`; only 0xA9/0xA8 are acted on, and
`last_state` is updated only when a publish happens. -/
def handle281 (s : St) (f : CANFrame) : St :=
  let b := byteAt f.data 1
  if b ≠ s.last_state ∧ (b = 0xA9 ∨ b = 0xA8) then
    { setLocked s (b = 0xA9) with last_state := b }
  else s

/-- Case 0x362 of `IncomingFrameCan1`: AC line voltage `raw / 100`,
accepted iff `150.0 ≤ v ≤ 280.0`; on accept the cache and the
charge-voltage metric are written and, if the cached current exceeds
0.1 A, the derived power `v·i/1000` kW is published. -/
def handle362 (s : St) (f : CANFrame) : St :=
  let v := vVolt f
  if 150 ≤ v ∧ v ≤ 280 then
    let s1 := setChargeVoltage { s with ac_voltage := v } v
    if s1.ac_current > 1/10 then
      setChargePower s1 (s1.ac_voltage * s1.ac_current / 1000)
    else s1
  else s

/-- Case 0x373 of `IncomingFrameCan1`: AC line current `raw / 164`,
accepted iff `0.1 ≤ i ≤ 40.0`; on accept the cache and the
charge-current metric are written and, if the cached voltage exceeds
10 V, the derived power `v·i/1000` kW is published. -/
def handle373 (s : St) (f : CANFrame) : St :=
  let i := aAmp f
  if 1/10 ≤ i ∧ i ≤ 40 then
    let s1 := setChargeCurrent { s with ac_current := i } i
    if s1.ac_voltage > 10 then
      setChargePower s1 (s1.ac_voltage * s1.ac_current / 1000)
    else s1
  else s

/-- Case 0x540 of `IncomingFrameCan1`: odometer from bytes 4..6 as
24-bit little-endian, `raw / 10` km, accepted iff `0 < km < 1000000`,
published only when it differs from the current metric value.  The code
has no DLC guard for this case. -/
def handle540 (s : St) (f : CANFrame) : St :=
  let raw := u24le (byteAt f.data 4) (byteAt f.data 5) (byteAt f.data 6)
  let km : ℚ := (raw : ℚ) / 10
  if 0 < km ∧ km < 1000000 then
    if s.m_odometer ≠ km then setOdometer s km else s
  else s

/-- Dispatcher of `IncomingFrameCan1` over CAN message ids (case 0x510
only logs, and unknown ids are ignored). -/
def handleCan (s : St) (f : CANFrame) : St :=
  if f.msgId = 0x266 then handle266 s f
  else if f.msgId = 0x281 then handle281 s f
  else if f.msgId = 0x362 then handle362 s f
  else if f.msgId = 0x373 then handle373 s f
  else if f.msgId = 0x540 then handle540 s f
  else s

/-- Raw big-endian 16-bit value of the first two poll-reply bytes. -/
def pRaw (data : List ℕ) : ℕ := u16be (byteAt data 0) (byteAt data 1)

/-- Case 0xF190 of `IncomingPollReply`: VIN copied verbatim from the
payload bytes whenever `length ≥ 1`. -/
def handleF190 (s : St) (data : List ℕ) : St :=
  if 1 ≤ data.length then setVin s (data.map fun b => b % 256) else s

/-- Case 0xE002 of `IncomingPollReply`: SOC from byte 0, accepted iff
`0 < soc ≤ 100`, published only on change. -/
def handleE002 (s : St) (data : List ℕ) : St :=
  if 1 ≤ data.length then
    let soc : ℚ := (byteAt data 0 : ℚ)
    if 0 < soc ∧ soc ≤ 100 then
      if s.m_soc ≠ soc then setSoc s soc else s
    else s
  else s

/-- Case 0xE003 of `IncomingPollReply`: SOH = `u16be / 100` %, rejected
for raw 0xFFFF, raw 0x1800, result ≤ 50 or > 150; on an accepted and
changed value the SOH metric is published and the usable capacity is
recomputed as nominal capacity × SOH/100. -/
def handleE003 (s : St) (data : List ℕ) : St :=
  if 2 ≤ data.length then
    let raw := pRaw data
    let soh : ℚ := (raw : ℚ) / 100
    if raw = 0xFFFF ∨ raw = 0x1800 ∨ soh ≤ 50 ∨ soh > 150 then s
    else if s.m_soh ≠ soh then
      let s1 := setSoh s soh
      setBatCapacity s1 (s1.m_pack_capacity * (soh / 100))
    else s
  else s

/-- Readiness as computed by case 0xE004: `(v & 0x000C) != 0`. -/
def readyOf (data : List ℕ) : Bool := Nat.land (pRaw data) 0x000C ≠ 0

/-- Case 0xE004 of `IncomingPollReply`: READY bitfield; `ms_v_env_on` is
always written; on a readiness change the poll state moves to 0 when not
ready (and currently nonzero) and to 1 when ready (and currently 0). -/
def handleE004 (s : St) (data : List ℕ) : St :=
  if 2 ≤ data.length then
    let ready := readyOf data
    let prev := s.m_env_on
    let s1 := setEnvOn s ready
    if ready ≠ prev then
      if ready = false ∧ s1.poll_state ≠ 0 then { s1 with poll_state := 0 }
      else if ready = true ∧ s1.poll_state = 0 then { s1 with poll_state := 1 }
      else s1
    else s1
  else s

/-- Case 0xE009 of `IncomingPollReply`: plug present iff the low byte of
the 16-bit value is zero; always published. -/
def handleE009 (s : St) (data : List ℕ) : St :=
  if 2 ≤ data.length then
    setChargePilot s (pRaw data % 256 = 0)
  else s

/-- Case 0xE010 of `IncomingPollReply`: HVAC temperature `raw / 10` °C;
raw 458 is rejected while the vehicle is not ready; raw 0x0200, 0xFFFF
and results outside [−40, 125] are always rejected. -/
def handleE010 (s : St) (data : List ℕ) : St :=
  if 2 ≤ data.length then
    let raw := pRaw data
    let t : ℚ := (raw : ℚ) / 10
    if s.m_env_on = false ∧ raw = 458 then s
    else if raw = 0x0200 ∨ raw = 0xFFFF ∨ t < -40 ∨ t > 125 then s
    else setHvacTemp s t
  else s

/-- Case 0xE025 of `IncomingPollReply`: ambient temperature `raw / 10` °C;
raw 75 is rejected while not ready; raw 0x0200, 0xFFFF and results outside
[−50, 80] are always rejected. -/
def handleE025 (s : St) (data : List ℕ) : St :=
  if 2 ≤ data.length then
    let raw := pRaw data
    let ta : ℚ := (raw : ℚ) / 10
    if s.m_env_on = false ∧ raw = 75 then s
    else if raw = 0x0200 ∨ raw = 0xFFFF ∨ ta < -50 ∨ ta > 80 then s
    else setEnvTemp s ta
  else s

/-- Dispatcher of `IncomingPollReply` over PIDs (unknown PIDs ignored). -/
def handlePoll (s : St) (pid : ℕ) (data : List ℕ) : St :=
  if pid = 0xF190 then handleF190 s data
  else if pid = 0xE002 then handleE002 s data
  else if pid = 0xE003 then handleE003 s data
  else if pid = 0xE004 then handleE004 s data
  else if pid = 0xE009 then handleE009 s data
  else if pid = 0xE025 then handleE025 s data
  else if pid = 0xE010 then handleE010 s data
  else s

/-- Process one event. -/
def step (s : St) (e : Event) : St :=
  match e with
  | Event.can f => handleCan s f
  | Event.poll pid data => handlePoll s pid data

/-- State after processing a whole event trace from construction. -/
def run (tr : List Event) : St := tr.foldl step initSt

/-- Accepted AC-voltage sample carried by an event (0x362 frame passing
the 150..280 V filter), if any. -/
def vSample (e : Event) : Option ℚ :=
  match e with
  | Event.can f =>
      if f.msgId = 0x362 ∧ 150 ≤ vVolt f ∧ vVolt f ≤ 280 then some (vVolt f) else none
  | Event.poll _ _ => none

/-- Accepted AC-current sample carried by an event (0x373 frame passing
the 0.1..40 A filter), if any. -/
def aSample (e : Event) : Option ℚ :=
  match e with
  | Event.can f =>
      if f.msgId = 0x373 ∧ 1/10 ≤ aAmp f ∧ aAmp f ≤ 40 then some (aAmp f) else none
  | Event.poll _ _ => none

/-- Accepted SOH sample carried by an event (0xE003 reply of length ≥ 2
passing the SOH filters), if any. -/
def sohSample (e : Event) : Option ℚ :=
  match e with
  | Event.poll pid data =>
      if pid = 0xE003 ∧ 2 ≤ data.length ∧
          ¬(pRaw data = 0xFFFF ∨ pRaw data = 0x1800 ∨
            (pRaw data : ℚ)/100 ≤ 50 ∨ (pRaw data : ℚ)/100 > 150) then
        some ((pRaw data : ℚ) / 100)
      else none
  | Event.can _ => none

def isPowerWrite (w : Write) : Bool :=
  match w with
  | Write.chargePower _ => true
  | _ => false

def isCapWrite (w : Write) : Bool :=
  match w with
  | Write.batCapacity _ => true
  | _ => false

def isVoltWrite (w : Write) : Bool :=
  match w with
  | Write.chargeVoltage _ => true
  | _ => false

def isLockWrite (w : Write) : Bool :=
  match w with
  | Write.locked _ => true
  | _ => false

def isHvacWrite (w : Write) : Bool :=
  match w with
  | Write.hvacTemp _ => true
  | _ => false

/-- Number of charge-power metric writes in a log. -/
def powerCount (l : List Write) : ℕ := l.countP (fun w => isPowerWrite w)

/-- Number of usable-capacity metric writes in a log. -/
def capCount (l : List Write) : ℕ := l.countP (fun w => isCapWrite w)

/-- Number of charge-voltage metric writes in a log. -/
def voltCount (l : List Write) : ℕ := l.countP (fun w => isVoltWrite w)

/-- Number of locked metric writes in a log. -/
def lockCount (l : List Write) : ℕ := l.countP (fun w => isLockWrite w)

/-- Number of HVAC-temperature metric writes in a log. -/
def hvacCount (l : List Write) : ℕ := l.countP (fun w => isHvacWrite w)

/-- Condition under which one step publishes derived AC power: a freshly
accepted voltage while the cached current exceeds 0.1 A, or a freshly
accepted current while the cached voltage exceeds 10 V. -/
def powCondB (s : St) (e : Event) : Bool :=
  ((vSample e).isSome && decide (s.ac_current > 1/10)) ||
  ((aSample e).isSome && decide (s.ac_voltage > 10))

/-- Condition under which one step recomputes usable capacity: an
accepted SOH sample that differs from the current SOH metric. -/
def capCondB (s : St) (e : Event) : Bool :=
  match sohSample e with
  | some q => decide (s.m_soh ≠ q)
  | none => false

lemma powerCount_cons (w : Write) (l : List Write) :
    powerCount (w :: l) = powerCount l + if isPowerWrite w then 1 else 0 := by
  simp [powerCount, List.countP_cons]

lemma capCount_cons (w : Write) (l : List Write) :
    capCount (w :: l) = capCount l + if isCapWrite w then 1 else 0 := by
  simp [capCount, List.countP_cons]

lemma voltCount_cons (w : Write) (l : List Write) :
    voltCount (w :: l) = voltCount l + if isVoltWrite w then 1 else 0 := by
  simp [voltCount, List.countP_cons]

/-- The step observations a handler may leave untouched: both caches, the
poll state, the readiness metric, the nominal capacity, and the number of
charge-power and usable-capacity writes. -/
def Neutral (s t : St) : Prop :=
  t.ac_voltage = s.ac_voltage ∧ t.ac_current = s.ac_current ∧
  t.poll_state = s.poll_state ∧ t.m_env_on = s.m_env_on ∧
  t.m_pack_capacity = s.m_pack_capacity ∧
  powerCount t.log = powerCount s.log ∧ capCount t.log = capCount s.log

lemma neutral_refl (s : St) : Neutral s s := by
  simp [Neutral]

lemma neutral_handle266 (s : St) (f : CANFrame) : Neutral s (handle266 s f) := by
  simp only [handle266, setHandbrake]
  split_ifs <;>
    simp [Neutral, powerCount_cons, capCount_cons, isPowerWrite, isCapWrite]

lemma neutral_handle281 (s : St) (f : CANFrame) : Neutral s (handle281 s f) := by
  simp only [handle281, setLocked]
  split_ifs <;>
    simp [Neutral, powerCount_cons, capCount_cons, isPowerWrite, isCapWrite]

lemma neutral_handle540 (s : St) (f : CANFrame) : Neutral s (handle540 s f) := by
  simp only [handle540, setOdometer]
  split_ifs <;>
    simp [Neutral, powerCount_cons, capCount_cons, isPowerWrite, isCapWrite]

lemma neutral_handleF190 (s : St) (data : List ℕ) : Neutral s (handleF190 s data) := by
  simp only [handleF190, setVin]
  split_ifs <;>
    simp [Neutral, powerCount_cons, capCount_cons, isPowerWrite, isCapWrite]

lemma neutral_handleE002 (s : St) (data : List ℕ) : Neutral s (handleE002 s data) := by
  simp only [handleE002, setSoc]
  split_ifs <;>
    simp [Neutral, powerCount_cons, capCount_cons, isPowerWrite, isCapWrite]

lemma neutral_handleE009 (s : St) (data : List ℕ) : Neutral s (handleE009 s data) := by
  simp only [handleE009, setChargePilot]
  split_ifs <;>
    simp [Neutral, powerCount_cons, capCount_cons, isPowerWrite, isCapWrite]

lemma neutral_handleE010 (s : St) (data : List ℕ) : Neutral s (handleE010 s data) := by
  simp only [handleE010, setHvacTemp]
  split_ifs <;>
    simp [Neutral, powerCount_cons, capCount_cons, isPowerWrite, isCapWrite]

lemma neutral_handleE025 (s : St) (data : List ℕ) : Neutral s (handleE025 s data) := by
  simp only [handleE025, setEnvTemp]
  split_ifs <;>
    simp [Neutral, powerCount_cons, capCount_cons, isPowerWrite, isCapWrite]

lemma handle362_reject (s : St) (f : CANFrame) (h : ¬(150 ≤ vVolt f ∧ vVolt f ≤ 280)) :
    handle362 s f = s := by
  simp only [handle362]
  rw [if_neg h]

lemma handle362_accept (s : St) (f : CANFrame) (h : 150 ≤ vVolt f ∧ vVolt f ≤ 280) :
    (handle362 s f).ac_voltage = vVolt f ∧
    (handle362 s f).ac_current = s.ac_current ∧
    (handle362 s f).poll_state = s.poll_state ∧
    (handle362 s f).m_env_on = s.m_env_on ∧
    (handle362 s f).m_pack_capacity = s.m_pack_capacity ∧
    (handle362 s f).m_charge_voltage = vVolt f ∧
    capCount (handle362 s f).log = capCount s.log ∧
    powerCount (handle362 s f).log = powerCount s.log + (if s.ac_current > 1/10 then 1 else 0) ∧
    voltCount (handle362 s f).log = voltCount s.log + 1 ∧
    (s.ac_current > 1/10 →
      (handle362 s f).log.head? = some (Write.chargePower (vVolt f * s.ac_current / 1000)) ∧
      (handle362 s f).m_charge_power = vVolt f * s.ac_current / 1000) ∧
    (¬(s.ac_current > 1/10) → (handle362 s f).m_charge_power = s.m_charge_power) := by
  simp only [handle362, setChargeVoltage, setChargePower]
  rw [if_pos h]
  split_ifs with hc <;>
    simp_all [powerCount_cons, capCount_cons, voltCount_cons, isPowerWrite, isCapWrite,
      isVoltWrite]

lemma handle373_reject (s : St) (f : CANFrame) (h : ¬(1/10 ≤ aAmp f ∧ aAmp f ≤ 40)) :
    handle373 s f = s := by
  simp only [handle373]
  rw [if_neg h]

lemma handle373_accept (s : St) (f : CANFrame) (h : 1/10 ≤ aAmp f ∧ aAmp f ≤ 40) :
    (handle373 s f).ac_voltage = s.ac_voltage ∧
    (handle373 s f).ac_current = aAmp f ∧
    (handle373 s f).poll_state = s.poll_state ∧
    (handle373 s f).m_env_on = s.m_env_on ∧
    (handle373 s f).m_pack_capacity = s.m_pack_capacity ∧
    (handle373 s f).m_charge_current = aAmp f ∧
    capCount (handle373 s f).log = capCount s.log ∧
    powerCount (handle373 s f).log = powerCount s.log + (if s.ac_voltage > 10 then 1 else 0) ∧
    (s.ac_voltage > 10 →
      (handle373 s f).log.head? = some (Write.chargePower (s.ac_voltage * aAmp f / 1000)) ∧
      (handle373 s f).m_charge_power = s.ac_voltage * aAmp f / 1000) ∧
    (¬(s.ac_voltage > 10) → (handle373 s f).m_charge_power = s.m_charge_power) := by
  simp only [handle373, setChargeCurrent, setChargePower]
  rw [if_pos h]
  split_ifs with hc <;>
    simp_all [powerCount_cons, capCount_cons, isPowerWrite, isCapWrite]

lemma handleE003_pres (s : St) (data : List ℕ) :
    (handleE003 s data).ac_voltage = s.ac_voltage ∧
    (handleE003 s data).ac_current = s.ac_current ∧
    (handleE003 s data).poll_state = s.poll_state ∧
    (handleE003 s data).m_env_on = s.m_env_on ∧
    (handleE003 s data).m_pack_capacity = s.m_pack_capacity ∧
    powerCount (handleE003 s data).log = powerCount s.log := by
  simp only [handleE003, setSoh, setBatCapacity]
  split_ifs <;> simp [powerCount_cons, isPowerWrite]

lemma handleE004_pres (s : St) (data : List ℕ) :
    (handleE004 s data).ac_voltage = s.ac_voltage ∧
    (handleE004 s data).ac_current = s.ac_current ∧
    (handleE004 s data).m_pack_capacity = s.m_pack_capacity ∧
    powerCount (handleE004 s data).log = powerCount s.log ∧
    capCount (handleE004 s data).log = capCount s.log := by
  simp only [handleE004, setEnvOn]
  split_ifs <;> simp [powerCount_cons, capCount_cons, isPowerWrite, isCapWrite]

lemma handleE003_capCount (s : St) (data : List ℕ) :
    capCount (handleE003 s data).log
      = capCount s.log + (if capCondB s (Event.poll 0xE003 data) then 1 else 0) := by
  simp only [handleE003, setSoh, setBatCapacity, capCondB, sohSample]
  split_ifs <;> simp_all [capCount_cons, isCapWrite]

lemma handleE003_accept (s : St) (data : List ℕ) (h2 : 2 ≤ data.length)
    (hacc : ¬(pRaw data = 0xFFFF ∨ pRaw data = 0x1800 ∨
      (pRaw data : ℚ)/100 ≤ 50 ∨ (pRaw data : ℚ)/100 > 150))
    (hne : s.m_soh ≠ (pRaw data : ℚ)/100) :
    handleE003 s data
      = setBatCapacity (setSoh s ((pRaw data : ℚ)/100))
          (s.m_pack_capacity * ((pRaw data : ℚ)/100 / 100)) := by
  simp only [handleE003, setSoh, setBatCapacity]
  rw [if_pos h2, if_neg hacc, if_pos hne]

lemma handleE003_unchanged (s : St) (data : List ℕ) (h2 : 2 ≤ data.length)
    (hacc : ¬(pRaw data = 0xFFFF ∨ pRaw data = 0x1800 ∨
      (pRaw data : ℚ)/100 ≤ 50 ∨ (pRaw data : ℚ)/100 > 150))
    (heq : s.m_soh = (pRaw data : ℚ)/100) :
    handleE003 s data = s := by
  simp only [handleE003, setSoh, setBatCapacity]
  rw [if_pos h2, if_neg hacc, if_neg (by simp [heq])]

lemma handleE004_short (s : St) (data : List ℕ) (h : ¬ 2 ≤ data.length) :
    handleE004 s data = s := by
  simp only [handleE004]
  rw [if_neg h]

lemma handleE004_poll (s : St) (data : List ℕ) (h2 : 2 ≤ data.length) :
    (handleE004 s data).m_env_on = readyOf data ∧
    (handleE004 s data).poll_state =
      (if readyOf data ≠ s.m_env_on then
        (if readyOf data = false ∧ s.poll_state ≠ 0 then 0
         else if readyOf data = true ∧ s.poll_state = 0 then 1 else s.poll_state)
       else s.poll_state) := by
  simp only [handleE004, setEnvOn]
  rw [if_pos h2]
  split_ifs <;> simp_all

/-- Condition under which one step publishes derived AC power: a freshly
accepted voltage while the cached current exceeds 0.1 A, or a freshly
accepted current while the cached voltage exceeds 10 V. -/
abbrev PowCond (s : St) (e : Event) : Prop :=
  ((vSample e).isSome ∧ s.ac_current > 1/10) ∨ ((aSample e).isSome ∧ s.ac_voltage > 10)

/-- Condition under which one step recomputes usable capacity: an accepted
SOH sample differing from the current SOH metric. -/
abbrev CapCond (s : St) (e : Event) : Prop :=
  (sohSample e).isSome ∧ s.m_soh ≠ (sohSample e).getD 0

lemma capCondB_iff (s : St) (e : Event) : capCondB s e = true ↔ CapCond s e := by
  unfold capCondB CapCond
  cases h : sohSample e <;> simp [h]

lemma step_main (s : St) (e : Event) :
    (step s e).ac_voltage = (vSample e).getD s.ac_voltage ∧
    (step s e).ac_current = (aSample e).getD s.ac_current ∧
    (step s e).m_pack_capacity = s.m_pack_capacity ∧
    powerCount (step s e).log = powerCount s.log + (if PowCond s e then 1 else 0) ∧
    capCount (step s e).log = capCount s.log + (if CapCond s e then 1 else 0) := by
  cases e with
  | can f =>
    by_cases h1 : f.msgId = 0x266
    · obtain ⟨a1, a2, _, _, a5, a6, a7⟩ := neutral_handle266 s f
      simp [step, handleCan, vSample, aSample, sohSample, PowCond, CapCond, h1,
        a1, a2, a5, a6, a7]
    · by_cases h2 : f.msgId = 0x281
      · obtain ⟨a1, a2, _, _, a5, a6, a7⟩ := neutral_handle281 s f
        simp [step, handleCan, vSample, aSample, sohSample, PowCond, CapCond, h1, h2,
          a1, a2, a5, a6, a7]
      · by_cases h3 : f.msgId = 0x362
        · by_cases hacc : 150 ≤ vVolt f ∧ vVolt f ≤ 280
          · obtain ⟨a1, a2, _, _, a5, _, a7, a8, _, _, _⟩ := handle362_accept s f hacc
            simp [step, handleCan, vSample, aSample, sohSample, PowCond, CapCond,
              h1, h2, h3, hacc, a1, a2, a5, a7, a8]
          · have hr := handle362_reject s f hacc
            simp [step, handleCan, vSample, aSample, sohSample, PowCond, CapCond,
              h1, h2, h3, hacc, hr]
        · by_cases h4 : f.msgId = 0x373
          · by_cases hacc : 1/10 ≤ aAmp f ∧ aAmp f ≤ 40
            · obtain ⟨a1, a2, _, _, a5, _, a7, a8, _, _⟩ := handle373_accept s f hacc
              have hx : (10:ℚ)⁻¹ ≤ aAmp f := by
                have h10 : ((10:ℚ))⁻¹ = 1/10 := by norm_num
                rw [h10]
                exact hacc.1
              simp [step, handleCan, vSample, aSample, sohSample, PowCond, CapCond,
                h1, h2, h3, h4, hacc.1, hacc.2, hx, a1, a2, a5, a7, a8]
            · have hr := handle373_reject s f hacc
              have ha : aSample (Event.can f) = none := by
                simp only [aSample]
                rw [if_neg]
                intro hcon
                exact hacc hcon.2
              simp [step, handleCan, vSample, sohSample, PowCond, CapCond,
                h1, h2, h3, h4, hacc, hr, ha]
          · by_cases h5 : f.msgId = 0x540
            · obtain ⟨a1, a2, _, _, a5, a6, a7⟩ := neutral_handle540 s f
              simp [step, handleCan, vSample, aSample, sohSample, PowCond, CapCond,
                h1, h2, h3, h4, h5, a1, a2, a5, a6, a7]
            · simp [step, handleCan, vSample, aSample, sohSample, PowCond, CapCond,
                h1, h2, h3, h4, h5]
  | poll pid data =>
    by_cases h1 : pid = 0xF190
    · obtain ⟨a1, a2, _, _, a5, a6, a7⟩ := neutral_handleF190 s data
      simp [step, handlePoll, vSample, aSample, sohSample, PowCond, CapCond, h1,
        a1, a2, a5, a6, a7]
    · by_cases h2 : pid = 0xE002
      · obtain ⟨a1, a2, _, _, a5, a6, a7⟩ := neutral_handleE002 s data
        simp [step, handlePoll, vSample, aSample, sohSample, PowCond, CapCond, h1, h2,
          a1, a2, a5, a6, a7]
      · by_cases h3 : pid = 0xE003
        · subst h3
          obtain ⟨a1, a2, _, _, a5, a6⟩ := handleE003_pres s data
          have hc := handleE003_capCount s data
          simp only [capCondB_iff] at hc
          simp [step, handlePoll, vSample, aSample, PowCond, h1, h2,
            a1, a2, a5, a6, hc]
        · by_cases h4 : pid = 0xE004
          · obtain ⟨a1, a2, a3, a4, a5⟩ := handleE004_pres s data
            subst h4
            simp [step, handlePoll, vSample, aSample, sohSample, PowCond, CapCond,
              h1, h2, h3, a1, a2, a3, a4, a5]
          · by_cases h5 : pid = 0xE009
            · obtain ⟨a1, a2, _, _, a5, a6, a7⟩ := neutral_handleE009 s data
              simp [step, handlePoll, vSample, aSample, sohSample, PowCond, CapCond,
                h1, h2, h3, h4, h5, a1, a2, a5, a6, a7]
            · by_cases h6 : pid = 0xE025
              · obtain ⟨a1, a2, _, _, a5, a6, a7⟩ := neutral_handleE025 s data
                simp [step, handlePoll, vSample, aSample, sohSample, PowCond, CapCond,
                  h1, h2, h3, h4, h5, h6, a1, a2, a5, a6, a7]
              · by_cases h7 : pid = 0xE010
                · obtain ⟨a1, a2, _, _, a5, a6, a7⟩ := neutral_handleE010 s data
                  simp [step, handlePoll, vSample, aSample, sohSample, PowCond, CapCond,
                    h1, h2, h3, h4, h5, h6, h7, a1, a2, a5, a6, a7]
                · simp [step, handlePoll, vSample, aSample, sohSample, PowCond, CapCond,
                    h1, h2, h3, h4, h5, h6, h7]

lemma step_pollState (s : St) (e : Event)
    (h : s.poll_state = if s.m_env_on then 1 else 0) :
    (step s e).poll_state = if (step s e).m_env_on then 1 else 0 := by
  cases e with
  | can f =>
    have hp : (handleCan s f).poll_state = s.poll_state ∧
        (handleCan s f).m_env_on = s.m_env_on := by
      by_cases h1 : f.msgId = 0x266
      · obtain ⟨_, _, a3, a4, _, _, _⟩ := neutral_handle266 s f
        simp [handleCan, h1, a3, a4]
      · by_cases h2 : f.msgId = 0x281
        · obtain ⟨_, _, a3, a4, _, _, _⟩ := neutral_handle281 s f
          simp [handleCan, h1, h2, a3, a4]
        · by_cases h3 : f.msgId = 0x362
          · by_cases hacc : 150 ≤ vVolt f ∧ vVolt f ≤ 280
            · obtain ⟨_, _, a3, a4, _, _, _, _, _, _, _⟩ := handle362_accept s f hacc
              simp [handleCan, h1, h2, h3, a3, a4]
            · simp [handleCan, h1, h2, h3, handle362_reject s f hacc]
          · by_cases h4 : f.msgId = 0x373
            · by_cases hacc : 1/10 ≤ aAmp f ∧ aAmp f ≤ 40
              · obtain ⟨_, _, a3, a4, _, _, _, _, _, _⟩ := handle373_accept s f hacc
                simp [handleCan, h1, h2, h3, h4, a3, a4]
              · simp [handleCan, h1, h2, h3, h4, handle373_reject s f hacc]
            · by_cases h5 : f.msgId = 0x540
              · obtain ⟨_, _, a3, a4, _, _, _⟩ := neutral_handle540 s f
                simp [handleCan, h1, h2, h3, h4, h5, a3, a4]
              · simp [handleCan, h1, h2, h3, h4, h5]
    have hs : step s (Event.can f) = handleCan s f := rfl
    rw [hs, hp.1, hp.2]
    exact h
  | poll pid data =>
    by_cases h4 : pid = 0xE004
    · subst h4
      by_cases hlen : 2 ≤ data.length
      · obtain ⟨he, hpo⟩ := handleE004_poll s data hlen
        have hstep : step s (Event.poll 0xE004 data) = handleE004 s data := by
          simp [step, handlePoll]
        rw [hstep, he, hpo]
        cases hr : readyOf data <;> cases hv : s.m_env_on <;> simp_all
      · have hstep : step s (Event.poll 0xE004 data) = s := by
          simp [step, handlePoll, handleE004_short s data hlen]
        rw [hstep]
        exact h
    · have hp : (handlePoll s pid data).poll_state = s.poll_state ∧
          (handlePoll s pid data).m_env_on = s.m_env_on := by
        by_cases h1 : pid = 0xF190
        · obtain ⟨_, _, a3, a4, _, _, _⟩ := neutral_handleF190 s data
          simp [handlePoll, h1, a3, a4]
        · by_cases h2 : pid = 0xE002
          · obtain ⟨_, _, a3, a4, _, _, _⟩ := neutral_handleE002 s data
            simp [handlePoll, h1, h2, a3, a4]
          · by_cases h3 : pid = 0xE003
            · obtain ⟨_, _, a3, a4, _, _⟩ := handleE003_pres s data
              simp [handlePoll, h1, h2, h3, h4, a3, a4]
            · by_cases h5 : pid = 0xE009
              · obtain ⟨_, _, a3, a4, _, _, _⟩ := neutral_handleE009 s data
                simp [handlePoll, h1, h2, h3, h4, h5, a3, a4]
              · by_cases h6 : pid = 0xE025
                · obtain ⟨_, _, a3, a4, _, _, _⟩ := neutral_handleE025 s data
                  simp [handlePoll, h1, h2, h3, h4, h5, h6, a3, a4]
                · by_cases h7 : pid = 0xE010
                  · obtain ⟨_, _, a3, a4, _, _, _⟩ := neutral_handleE010 s data
                    simp [handlePoll, h1, h2, h3, h4, h5, h6, h7, a3, a4]
                  · simp [handlePoll, h1, h2, h3, h4, h5, h6, h7]
      have hs : step s (Event.poll pid data) = handlePoll s pid data := rfl
      rw [hs, hp.1, hp.2]
      exact h

lemma foldl_inv (P : St → Prop) (hstep : ∀ s e, P s → P (step s e)) :
    ∀ (tr : List Event) (s : St), P s → P (List.foldl step s tr)
  | [], _, h => h
  | e :: tr, s, h => foldl_inv P hstep tr (step s e) (hstep s e h)

/-- Invariant of every reachable state: the poll state mirrors the
readiness metric (0 when off, 1 when on); in particular it is never 2. -/
lemma run_pollState (tr : List Event) :
    (run tr).poll_state = if (run tr).m_env_on then 1 else 0 :=
  foldl_inv (fun s => s.poll_state = if s.m_env_on then 1 else 0)
    step_pollState tr initSt rfl

lemma run_pack (tr : List Event) : (run tr).m_pack_capacity = 177/2 :=
  foldl_inv (fun s => s.m_pack_capacity = 177/2)
    (fun s e h => by
      show (step s e).m_pack_capacity = 177/2
      rw [(step_main s e).2.2.1]
      exact h) tr initSt rfl

/-- Latch combinator: keep the new sample when present, else the old. -/
def latch (a : Option ℚ) (x : Option ℚ) : Option ℚ :=
  match x with
  | some v => some v
  | none => a

/-- The most recently accepted AC-voltage sample in a trace, if any. -/
def lastAccV (tr : List Event) : Option ℚ :=
  tr.foldl (fun a e => latch a (vSample e)) none

/-- The most recently accepted AC-current sample in a trace, if any. -/
def lastAccA (tr : List Event) : Option ℚ :=
  tr.foldl (fun a e => latch a (aSample e)) none

lemma foldl_latch_v : ∀ (tr : List Event) (s : St) (a : Option ℚ),
    s.ac_voltage = a.getD 0 →
    (List.foldl step s tr).ac_voltage
      = (tr.foldl (fun a e => latch a (vSample e)) a).getD 0
  | [], _, _, h => h
  | e :: tr, s, a, h => by
      simp only [List.foldl_cons]
      apply foldl_latch_v tr
      rw [(step_main s e).1]
      cases hv : vSample e <;> simp [latch, hv, h]

lemma foldl_latch_a : ∀ (tr : List Event) (s : St) (a : Option ℚ),
    s.ac_current = a.getD 0 →
    (List.foldl step s tr).ac_current
      = (tr.foldl (fun a e => latch a (aSample e)) a).getD 0
  | [], _, _, h => h
  | e :: tr, s, a, h => by
      simp only [List.foldl_cons]
      apply foldl_latch_a tr
      rw [(step_main s e).2.1]
      cases hv : aSample e <;> simp [latch, hv, h]

lemma run_ac_voltage (tr : List Event) :
    (run tr).ac_voltage = (lastAccV tr).getD 0 :=
  foldl_latch_v tr initSt none rfl

lemma run_ac_current (tr : List Event) :
    (run tr).ac_current = (lastAccA tr).getD 0 :=
  foldl_latch_a tr initSt none rfl

lemma vSample_range (e : Event) (v : ℚ) (h : vSample e = some v) :
    150 ≤ v ∧ v ≤ 280 := by
  cases e with
  | can f =>
    simp only [vSample] at h
    split_ifs at h with hc
    obtain rfl : vVolt f = v := by injection h
    exact ⟨hc.2.1, hc.2.2⟩
  | poll pid data => cases h

lemma aSample_range (e : Event) (v : ℚ) (h : aSample e = some v) :
    1/10 ≤ v ∧ v ≤ 40 := by
  cases e with
  | can f =>
    simp only [aSample] at h
    split_ifs at h with hc
    obtain rfl : aAmp f = v := by injection h
    exact ⟨hc.2.1, hc.2.2⟩
  | poll pid data => cases h

lemma foldl_latch_isSome (g : Event → Option ℚ) : ∀ (tr : List Event) (a : Option ℚ),
    (tr.foldl (fun a e => latch a (g e)) a).isSome = true →
    a.isSome = true ∨ ∃ e ∈ tr, (g e).isSome = true
  | [], _, h => Or.inl h
  | e :: tr, a, h => by
      simp only [List.foldl_cons] at h
      rcases foldl_latch_isSome g tr (latch a (g e)) h with h1 | ⟨e2, he2, hg⟩
      · cases hg2 : g e with
        | some v => exact Or.inr ⟨e, by simp, by simp [hg2]⟩
        | none =>
            rw [hg2] at h1
            exact Or.inl h1
      · exact Or.inr ⟨e2, by simp [he2], hg⟩

lemma foldl_latch_bound (g : Event → Option ℚ) (lo hi : ℚ)
    (hg : ∀ e v, g e = some v → lo ≤ v ∧ v ≤ hi) :
    ∀ (tr : List Event) (a : Option ℚ),
    (∀ v, a = some v → lo ≤ v ∧ v ≤ hi) →
    ∀ v, tr.foldl (fun a e => latch a (g e)) a = some v → lo ≤ v ∧ v ≤ hi
  | [], _, ha, v, h => ha v h
  | e :: tr, a, ha, v, h => by
      simp only [List.foldl_cons] at h
      refine foldl_latch_bound g lo hi hg tr (latch a (g e)) ?_ v h
      intro w hw
      cases hg2 : g e with
      | some u =>
          rw [hg2] at hw
          simp only [latch, Option.some.injEq] at hw
          subst hw
          exact hg e u hg2
      | none =>
          rw [hg2] at hw
          exact ha w hw

lemma lastAccV_range (tr : List Event) (v : ℚ) (h : lastAccV tr = some v) :
    150 ≤ v ∧ v ≤ 280 :=
  foldl_latch_bound vSample 150 280 vSample_range tr none (fun _ hw => by cases hw) v h

lemma lastAccA_range (tr : List Event) (v : ℚ) (h : lastAccA tr = some v) :
    1/10 ≤ v ∧ v ≤ 40 :=
  foldl_latch_bound aSample (1/10) 40 aSample_range tr none (fun _ hw => by cases hw) v h

lemma run_append (tr : List Event) (e : Event) :
    run (tr ++ [e]) = step (run tr) e := by
  simp [run, List.foldl_append]

lemma run_voltage_origin (tr : List Event) (h : (run tr).ac_voltage ≠ 0) :
    ∃ e ∈ tr, (vSample e).isSome := by
  rw [run_ac_voltage] at h
  cases hl : lastAccV tr with
  | none =>
      rw [hl] at h
      simp at h
  | some i =>
      have hs : (lastAccV tr).isSome = true := by rw [hl]; rfl
      rcases foldl_latch_isSome vSample tr none hs with h1 | h2
      · simp at h1
      · exact h2

lemma run_current_origin (tr : List Event) (h : (run tr).ac_current ≠ 0) :
    ∃ e ∈ tr, (aSample e).isSome := by
  rw [run_ac_current] at h
  cases hl : lastAccA tr with
  | none =>
      rw [hl] at h
      simp at h
  | some i =>
      have hs : (lastAccA tr).isSome = true := by rw [hl]; rfl
      rcases foldl_latch_isSome aSample tr none hs with h1 | h2
      · simp at h1
      · exact h2

lemma run_power_origin (tr : List Event) (h : powerCount (run tr).log ≠ 0) :
    (∃ e ∈ tr, (vSample e).isSome) ∧ (∃ e ∈ tr, (aSample e).isSome) := by
  induction tr using List.reverseRecOn with
  | nil => simp [run, initSt, powerCount] at h
  | append_singleton tr e ih =>
      rw [run_append] at h
      have hm := (step_main (run tr) e).2.2.2.1
      by_cases hp : PowCond (run tr) e
      · rcases hp with ⟨hv, hc⟩ | ⟨ha, hv10⟩
        · have hA : ∃ e2 ∈ tr, (aSample e2).isSome := by
            apply run_current_origin
            intro h0
            rw [h0] at hc
            norm_num at hc
          obtain ⟨e2, he2, ha2⟩ := hA
          exact ⟨⟨e, by simp, hv⟩, ⟨e2, by simp [he2], ha2⟩⟩
        · have hV : ∃ e2 ∈ tr, (vSample e2).isSome := by
            apply run_voltage_origin
            intro h0
            rw [h0] at hv10
            norm_num at hv10
          obtain ⟨e2, he2, hv2⟩ := hV
          exact ⟨⟨e2, by simp [he2], hv2⟩, ⟨e, by simp, ha⟩⟩
      · rw [hm, if_neg hp, Nat.add_zero] at h
        obtain ⟨⟨e2, he2, hx⟩, ⟨e3, he3, hy⟩⟩ := ih h
        exact ⟨⟨e2, by simp [he2], hx⟩, ⟨e3, by simp [he3], hy⟩⟩

lemma handleCan_eq281 (s : St) (f : CANFrame) (h : f.msgId = 0x281) :
    handleCan s f = handle281 s f := by
  simp [handleCan, h]

lemma handleCan_eq362 (s : St) (f : CANFrame) (h : f.msgId = 0x362) :
    handleCan s f = handle362 s f := by
  simp [handleCan, h]

lemma handleCan_eq373 (s : St) (f : CANFrame) (h : f.msgId = 0x373) :
    handleCan s f = handle373 s f := by
  simp [handleCan, h]

lemma handleCan_eq540 (s : St) (f : CANFrame) (h : f.msgId = 0x540) :
    handleCan s f = handle540 s f := by
  simp [handleCan, h]

lemma handlePoll_eqF190 (s : St) (data : List ℕ) :
    handlePoll s 0xF190 data = handleF190 s data := by
  simp [handlePoll]

lemma handlePoll_eqE003 (s : St) (data : List ℕ) :
    handlePoll s 0xE003 data = handleE003 s data := by
  simp [handlePoll]

lemma handlePoll_eqE004 (s : St) (data : List ℕ) :
    handlePoll s 0xE004 data = handleE004 s data := by
  simp [handlePoll]

lemma handlePoll_eqE010 (s : St) (data : List ℕ) :
    handlePoll s 0xE010 data = handleE010 s data := by
  simp [handlePoll]

lemma vSample_isSome (f : CANFrame) (h : (vSample (Event.can f)).isSome = true) :
    f.msgId = 0x362 ∧ 150 ≤ vVolt f ∧ vVolt f ≤ 280 := by
  by_contra hc
  simp only [vSample] at h
  rw [if_neg hc] at h
  cases h

lemma aSample_isSome (f : CANFrame) (h : (aSample (Event.can f)).isSome = true) :
    f.msgId = 0x373 ∧ 1/10 ≤ aAmp f ∧ aAmp f ≤ 40 := by
  by_contra hc
  simp only [aSample] at h
  rw [if_neg hc] at h
  cases h

lemma step_power_head (s : St) (e : Event) (hp : PowCond s e) :
    (step s e).log.head?
      = some (Write.chargePower ((step s e).ac_voltage * (step s e).ac_current / 1000)) := by
  rcases hp with ⟨hv, hc⟩ | ⟨ha, hv10⟩
  · cases e with
    | poll pid data => cases hv
    | can f =>
        obtain ⟨hid, hacc⟩ := vSample_isSome f hv
        obtain ⟨a1, a2, _, _, _, _, _, _, _, ah, _⟩ := handle362_accept s f hacc
        have hs : step s (Event.can f) = handle362 s f := by
          rw [step.eq_def]
          exact handleCan_eq362 s f hid
        rw [hs, a1, a2]
        exact (ah hc).1
  · cases e with
    | poll pid data => cases ha
    | can f =>
        obtain ⟨hid, hacc⟩ := aSample_isSome f ha
        obtain ⟨a1, a2, _, _, _, _, _, _, ah, _⟩ := handle373_accept s f hacc
        have hs : step s (Event.can f) = handle373 s f := by
          rw [step.eq_def]
          exact handleCan_eq373 s f hid
        rw [hs, a1, a2]
        exact (ah hv10).1

lemma sohSample_isSome (pid : ℕ) (data : List ℕ)
    (h : (sohSample (Event.poll pid data)).isSome = true) :
    pid = 0xE003 ∧ 2 ≤ data.length ∧
    ¬(pRaw data = 0xFFFF ∨ pRaw data = 0x1800 ∨
      (pRaw data : ℚ)/100 ≤ 50 ∨ (pRaw data : ℚ)/100 > 150) ∧
    sohSample (Event.poll pid data) = some ((pRaw data : ℚ)/100) := by
  simp only [sohSample] at h ⊢
  split_ifs at h with hc
  · exact ⟨hc.1, hc.2.1, hc.2.2, by rw [if_pos hc]⟩
  · cases h

/-- C1: derived AC charge power is published in a step exactly when one
cached input is freshly accepted and the other cached input is non-trivial
(current > 0.1 A for a fresh voltage, voltage > 10 V for a fresh current);
whenever it is published its value is cached voltage × cached current /
1000 kW; and a nonzero number of power writes implies at least one
accepted voltage sample and one accepted current sample occurred, in
either order. -/
theorem C1_derived_power (tr : List Event) (e : Event) :
    (powerCount (step (run tr) e).log
       = powerCount (run tr).log + (if PowCond (run tr) e then 1 else 0)) ∧
    (PowCond (run tr) e →
      (step (run tr) e).log.head?
        = some (Write.chargePower
            ((step (run tr) e).ac_voltage * (step (run tr) e).ac_current / 1000))) ∧
    (powerCount (run tr).log ≠ 0 →
      (∃ e2 ∈ tr, (vSample e2).isSome) ∧ (∃ e2 ∈ tr, (aSample e2).isSome)) :=
  ⟨(step_main (run tr) e).2.2.2.1,
   fun hp => step_power_head (run tr) e hp,
   fun h => run_power_origin tr h⟩

/-- Witness for C1 at the spec's end-to-end scenario: after an accepted
226.00 V frame, an accepted 14.56 A frame publishes 226 × (597/41) / 1000
= 67461/20500 ≈ 3.2908 kW. -/
theorem C1_derived_power_witness :
    (step (run [Event.can ⟨0x362, 8, [0x58, 0x48, 0, 0, 0, 0, 0, 0]⟩])
       (Event.can ⟨0x373, 8, [0x09, 0x54, 0, 0, 0, 0, 0, 0]⟩)).log.head?
      = some (Write.chargePower (67461/20500)) := by
  have hA : aSample (Event.can ⟨0x373, 8, [0x09, 0x54, 0, 0, 0, 0, 0, 0]⟩)
      = some (597/41) := by
    norm_num [aSample, aAmp, vRaw, byteAt, u16be]
  have hAv : vSample (Event.can ⟨0x373, 8, [0x09, 0x54, 0, 0, 0, 0, 0, 0]⟩) = none := by
    decide
  have hV : (run [Event.can ⟨0x362, 8, [0x58, 0x48, 0, 0, 0, 0, 0, 0]⟩]).ac_voltage
      = 226 := by
    norm_num [run, step, handleCan, handle362, vVolt, vRaw, byteAt, u16be, initSt,
      setChargeVoltage, setChargePower]
  have hp : PowCond (run [Event.can ⟨0x362, 8, [0x58, 0x48, 0, 0, 0, 0, 0, 0]⟩])
      (Event.can ⟨0x373, 8, [0x09, 0x54, 0, 0, 0, 0, 0, 0]⟩) := by
    refine Or.inr ⟨by rw [hA]; rfl, by rw [hV]; norm_num⟩
  have h := (C1_derived_power [Event.can ⟨0x362, 8, [0x58, 0x48, 0, 0, 0, 0, 0, 0]⟩]
    (Event.can ⟨0x373, 8, [0x09, 0x54, 0, 0, 0, 0, 0, 0]⟩)).2.1 hp
  rw [h, (step_main _ _).1, (step_main _ _).2.1, hA, hAv, hV]
  norm_num

/-- C2: on an accepted READY decode the poll state machine moves to OFF
when readiness is false and the state is not OFF, to ON when readiness is
true and the state is OFF, and stays put otherwise; states are confined
to {0, 1}, so CHARGING (2) is never entered. -/
theorem C2_poll_state_machine (tr : List Event) (data : List ℕ)
    (h2 : 2 ≤ data.length) :
    (readyOf data = false → (run tr).poll_state ≠ 0 →
       (step (run tr) (Event.poll 0xE004 data)).poll_state = 0) ∧
    (readyOf data = true → (run tr).poll_state = 0 →
       (step (run tr) (Event.poll 0xE004 data)).poll_state = 1) ∧
    (readyOf data = false → (run tr).poll_state = 0 →
       (step (run tr) (Event.poll 0xE004 data)).poll_state = (run tr).poll_state) ∧
    (readyOf data = true → (run tr).poll_state ≠ 0 →
       (step (run tr) (Event.poll 0xE004 data)).poll_state = (run tr).poll_state) ∧
    (run tr).poll_state ≠ 2 ∧
    (step (run tr) (Event.poll 0xE004 data)).poll_state ≠ 2 := by
  have hinv := run_pollState tr
  have hstep : step (run tr) (Event.poll 0xE004 data) = handleE004 (run tr) data := by
    rw [step.eq_def]
    exact handlePoll_eqE004 (run tr) data
  obtain ⟨henv, hpoll⟩ := handleE004_poll (run tr) data h2
  have hps : (run tr).poll_state ≠ 2 := by
    rw [hinv]
    cases (run tr).m_env_on <;> simp
  refine ⟨?_, ?_, ?_, ?_, hps, ?_⟩
  · intro hr hne
    have henv2 : (run tr).m_env_on = true := by
      cases hb : (run tr).m_env_on
      · rw [hinv, hb] at hne
        simp at hne
      · rfl
    rw [hstep, hpoll]
    simp [hr, henv2, hne]
  · intro hr heq0
    have henv2 : (run tr).m_env_on = false := by
      cases hb : (run tr).m_env_on
      · rfl
      · rw [hinv, hb] at heq0
        simp at heq0
    rw [hstep, hpoll]
    simp [hr, henv2, heq0]
  · intro hr heq0
    have henv2 : (run tr).m_env_on = false := by
      cases hb : (run tr).m_env_on
      · rfl
      · rw [hinv, hb] at heq0
        simp at heq0
    rw [hstep, hpoll]
    simp [hr, henv2]
  · intro hr hne
    have henv2 : (run tr).m_env_on = true := by
      cases hb : (run tr).m_env_on
      · rw [hinv, hb] at hne
        simp at hne
      · rfl
    rw [hstep, hpoll]
    simp [hr, henv2]
  · rw [hstep, hpoll]
    split_ifs <;> first | exact hps | omega

/-- Witness for C2: from the initial state, a READY reply with bits 2-3
set moves the poll state from 0 to 1. -/
theorem C2_poll_state_machine_witness :
    (step (run []) (Event.poll 0xE004 [0x00, 0x0C])).poll_state = 1 :=
  (C2_poll_state_machine [] [0x00, 0x0C] (by decide)).2.1 (by decide) (by decide)

/-- C3: an SOH reply of length ≥ 2 whose raw value is 0xFFFF or 0x1800,
or decodes to ≤ 50 % or > 150 %, leaves the whole state unchanged (no SOH
write, no usable-capacity recomputation); and 0x1800 decodes to 61.44 %,
inside the otherwise plausible range. -/
theorem C3_soh_rejection (s : St) (data : List ℕ) (h2 : 2 ≤ data.length)
    (hrej : pRaw data = 0xFFFF ∨ pRaw data = 0x1800 ∨
      (pRaw data : ℚ)/100 ≤ 50 ∨ (pRaw data : ℚ)/100 > 150) :
    handlePoll s 0xE003 data = s ∧
    50 < (0x1800 : ℚ)/100 ∧ (0x1800 : ℚ)/100 ≤ 150 := by
  refine ⟨?_, by norm_num, by norm_num⟩
  rw [handlePoll_eqE003]
  simp only [handleE003]
  rw [if_pos h2, if_pos hrej]

/-- Witness for C3: raw 0xFFFF of length 2 is rejected from the initial
state. -/
theorem C3_soh_rejection_witness : handlePoll initSt 0xE003 [0xFF, 0xFF] = initSt :=
  (C3_soh_rejection initSt [0xFF, 0xFF] (by decide) (Or.inl (by decide))).1

/-- C4: usable capacity is recomputed exactly on an accepted SOH sample
that differs from the current SOH metric, and its new value is exactly
88.5 kWh × SOH / 100. -/
theorem C4_usable_capacity (tr : List Event) (e : Event) :
    (capCount (step (run tr) e).log
       = capCount (run tr).log + (if CapCond (run tr) e then 1 else 0)) ∧
    (CapCond (run tr) e →
       (step (run tr) e).m_bat_capacity
         = 177/2 * ((sohSample e).getD 0 / 100)) := by
  refine ⟨(step_main (run tr) e).2.2.2.2, ?_⟩
  intro hcap
  obtain ⟨hsome, hne⟩ := hcap
  cases e with
  | can f => simp [sohSample] at hsome
  | poll pid data =>
      obtain ⟨hpid, hlen, hrej, hval⟩ := sohSample_isSome pid data hsome
      subst hpid
      have hstep : step (run tr) (Event.poll 0xE003 data) = handleE003 (run tr) data := by
        rw [step.eq_def]
        exact handlePoll_eqE003 (run tr) data
      have hgetD : (sohSample (Event.poll 0xE003 data)).getD 0 = (pRaw data : ℚ)/100 := by
        rw [hval]
        rfl
      rw [hgetD] at hne
      have hp := run_pack tr
      rw [hstep, handleE003_accept (run tr) data hlen hrej hne, hgetD]
      simp [setBatCapacity, setSoh, hp]

/-- Witness for C4: an SOH reply of raw 0x2328 (90.00 %) from the initial
state sets usable capacity to 88.5 × 0.9 = 79.65 kWh. -/
theorem C4_usable_capacity_witness :
    (step (run []) (Event.poll 0xE003 [0x23, 0x28])).m_bat_capacity = 1593/20 := by
  have hsoh : sohSample (Event.poll 0xE003 [0x23, 0x28]) = some 90 := by
    norm_num [sohSample, pRaw, byteAt, u16be]
  have hcap : CapCond (run []) (Event.poll 0xE003 [0x23, 0x28]) := by
    refine ⟨by rw [hsoh]; rfl, by rw [hsoh]; norm_num [run, initSt]⟩
  have h := (C4_usable_capacity [] (Event.poll 0xE003 [0x23, 0x28])).2 hcap
  rw [h, hsoh]
  norm_num

/-- Counterexample to C5: a 0x362 frame with declared payload length 1
(shorter than the 2 bytes its rule reads) is not ignored: the decoder
reads the fixed 8-byte buffer with no DLC guard, decodes 0x5800 = 225.28 V
(in range even with the out-of-length byte zero), and writes both the
cache and the charge-voltage metric. -/
theorem C5_short_frame_cex :
    (⟨0x362, 1, [0x58, 0, 0, 0, 0, 0, 0, 0]⟩ : CANFrame).dlc < 2 ∧
    (handleCan initSt ⟨0x362, 1, [0x58, 0, 0, 0, 0, 0, 0, 0]⟩).m_charge_voltage
      = 5632/25 ∧
    (handleCan initSt ⟨0x362, 1, [0x58, 0, 0, 0, 0, 0, 0, 0]⟩).log
      = [Write.chargeVoltage (5632/25)] := by
  refine ⟨by norm_num, ?_, ?_⟩ <;>
    norm_num [handleCan, handle362, vVolt, vRaw, byteAt, u16be, initSt,
      setChargeVoltage, setChargePower]

/-- C5 as amended: only the handbrake rule (length ≥ 3) and the gear
rule (logged only) honour the declared payload length; the lock, AC
voltage, AC current and odometer rules behave identically for every
declared length, reading the fixed buffer positions. -/
theorem C5_length_gating (s : St) (f : CANFrame) :
    (f.msgId = 0x266 → f.dlc < 3 → handleCan s f = s) ∧
    (f.msgId = 0x510 → handleCan s f = s) ∧
    ((f.msgId = 0x281 ∨ f.msgId = 0x362 ∨ f.msgId = 0x373 ∨ f.msgId = 0x540) →
      ∀ n, handleCan s { f with dlc := n } = handleCan s f) := by
  refine ⟨?_, ?_, ?_⟩
  · intro h hd
    have he : handleCan s f = handle266 s f := by
      simp [handleCan, h]
    rw [he]
    simp only [handle266]
    rw [if_pos hd]
  · intro h
    simp [handleCan, h]
  · intro hid n
    rcases hid with h | h | h | h <;>
      simp [handleCan, h, handle281, handle362, handle373, handle540, vVolt, vRaw, aAmp]

/-- Witness for the amended C5: a 2-byte handbrake frame is ignored. -/
theorem C5_length_gating_witness :
    handleCan initSt ⟨0x266, 2, [1, 1, 1, 1, 1, 1, 1, 1]⟩ = initSt :=
  (C5_length_gating initSt ⟨0x266, 2, [1, 1, 1, 1, 1, 1, 1, 1]⟩).1 rfl (by decide)

/-- C6: a 0x362 frame decodes to the big-endian 16-bit value of bytes
0..1 divided by 100; in range [150, 280] it updates the cached voltage
and the charge-voltage metric and attempts a power recomputation (which
fires iff the cached current exceeds 0.1 A); out of range it changes
nothing at all. -/
theorem C6_ac_voltage_gate (s : St) (f : CANFrame) (hid : f.msgId = 0x362) :
    vVolt f = ((u16be (byteAt f.data 0) (byteAt f.data 1) : ℕ) : ℚ) / 100 ∧
    ((150 ≤ vVolt f ∧ vVolt f ≤ 280) →
      (handleCan s f).ac_voltage = vVolt f ∧
      (handleCan s f).m_charge_voltage = vVolt f ∧
      voltCount (handleCan s f).log = voltCount s.log + 1 ∧
      powerCount (handleCan s f).log
        = powerCount s.log + (if s.ac_current > 1/10 then 1 else 0)) ∧
    (¬(150 ≤ vVolt f ∧ vVolt f ≤ 280) → handleCan s f = s) := by
  refine ⟨rfl, ?_, ?_⟩
  · intro hacc
    rw [handleCan_eq362 s f hid]
    obtain ⟨a1, _, _, _, _, a6, _, a8, a9, _, _⟩ := handle362_accept s f hacc
    exact ⟨a1, a6, a9, a8⟩
  · intro hacc
    rw [handleCan_eq362 s f hid]
    exact handle362_reject s f hacc

/-- Witness for C6: raw 0x5848 (= 22600) decodes to 226.00 V and is
accepted into the cache. -/
theorem C6_ac_voltage_gate_witness :
    (handleCan initSt ⟨0x362, 8, [0x58, 0x48, 0, 0, 0, 0, 0, 0]⟩).ac_voltage = 226 := by
  have h := ((C6_ac_voltage_gate initSt ⟨0x362, 8, [0x58, 0x48, 0, 0, 0, 0, 0, 0]⟩ rfl).2.1
    (by norm_num [vVolt, vRaw, byteAt, u16be])).1
  rw [h]
  norm_num [vVolt, vRaw, byteAt, u16be]

/-- C7: for HVAC replies of length ≥ 2, raw 458 is rejected while the
readiness metric is false but accepted as 45.8 °C while it is true;
raw 0x0200, raw 0xFFFF and out-of-range results are rejected regardless
of readiness. -/
theorem C7_hvac_filter (s : St) (data : List ℕ) (h2 : 2 ≤ data.length) :
    (pRaw data = 458 → s.m_env_on = false → handlePoll s 0xE010 data = s) ∧
    (pRaw data = 458 → s.m_env_on = true →
      (handlePoll s 0xE010 data).m_hvac_temp = 229/5 ∧
      hvacCount (handlePoll s 0xE010 data).log = hvacCount s.log + 1) ∧
    ((pRaw data = 0x0200 ∨ pRaw data = 0xFFFF ∨
        (pRaw data : ℚ)/10 < -40 ∨ (pRaw data : ℚ)/10 > 125) →
      handlePoll s 0xE010 data = s) := by
  refine ⟨?_, ?_, ?_⟩
  · intro hraw henv
    rw [handlePoll_eqE010]
    simp only [handleE010]
    rw [if_pos h2, if_pos ⟨henv, hraw⟩]
  · intro hraw henv
    rw [handlePoll_eqE010]
    simp only [handleE010]
    rw [if_pos h2, if_neg (by simp [henv]), if_neg (by rw [hraw]; norm_num)]
    constructor
    · simp only [setHvacTemp]
      rw [hraw]
      norm_num
    · simp [setHvacTemp, hvacCount, List.countP_cons, isHvacWrite]
  · intro hrej
    rw [handlePoll_eqE010]
    simp only [handleE010]
    by_cases hc1 : s.m_env_on = false ∧ pRaw data = 458
    · exfalso
      rw [hc1.2] at hrej
      norm_num at hrej
    · rw [if_pos h2, if_neg hc1, if_pos hrej]

/-- Witness for C7: raw 458 is rejected in the initial (not ready) state
and accepted as 45.8 °C once ready. -/
theorem C7_hvac_filter_witness :
    handlePoll initSt 0xE010 [0x01, 0xCA] = initSt ∧
    (handlePoll { initSt with m_env_on := true } 0xE010 [0x01, 0xCA]).m_hvac_temp
      = 229/5 :=
  ⟨(C7_hvac_filter initSt [0x01, 0xCA] (by decide)).1 (by decide) rfl,
   ((C7_hvac_filter { initSt with m_env_on := true } [0x01, 0xCA] (by decide)).2.1
      (by decide) rfl).1⟩

/-- C8: on a 0x281 frame, byte 1 = 0xA9 publishes locked and 0xA8
publishes unlocked, in both cases only when the byte differs from the
debounce byte (which is updated on publish); any other byte value, or a
repeat of the debounce byte, changes nothing. -/
theorem C8_lock_debounce (s : St) (f : CANFrame) (hid : f.msgId = 0x281) :
    (byteAt f.data 1 = 0xA9 → byteAt f.data 1 ≠ s.last_state →
      (handleCan s f).m_locked = true ∧ (handleCan s f).last_state = 0xA9 ∧
      lockCount (handleCan s f).log = lockCount s.log + 1) ∧
    (byteAt f.data 1 = 0xA8 → byteAt f.data 1 ≠ s.last_state →
      (handleCan s f).m_locked = false ∧ (handleCan s f).last_state = 0xA8 ∧
      lockCount (handleCan s f).log = lockCount s.log + 1) ∧
    (byteAt f.data 1 ≠ 0xA9 → byteAt f.data 1 ≠ 0xA8 → handleCan s f = s) ∧
    (byteAt f.data 1 = s.last_state → handleCan s f = s) := by
  rw [handleCan_eq281 s f hid]
  refine ⟨?_, ?_, ?_, ?_⟩
  · intro h hne
    simp only [handle281, setLocked]
    rw [if_pos ⟨hne, Or.inl h⟩]
    refine ⟨?_, ?_, ?_⟩ <;> simp [h, lockCount, List.countP_cons, isLockWrite]
  · intro h hne
    simp only [handle281, setLocked]
    rw [if_pos ⟨hne, Or.inr h⟩]
    refine ⟨?_, ?_, ?_⟩ <;> simp [h, lockCount, List.countP_cons, isLockWrite]
  · intro h1 h8
    simp only [handle281, setLocked]
    rw [if_neg fun hc => hc.2.elim h1 h8]
  · intro heq
    simp only [handle281, setLocked]
    rw [if_neg fun hc => hc.1 heq]

/-- Witness for C8: byte 0xA9 from the initial state publishes
locked = true and latches the debounce byte. -/
theorem C8_lock_debounce_witness :
    (handleCan initSt ⟨0x281, 8, [0, 0xA9, 0, 0, 0, 0, 0, 0]⟩).m_locked = true :=
  ((C8_lock_debounce initSt ⟨0x281, 8, [0, 0xA9, 0, 0, 0, 0, 0, 0]⟩ rfl).1
    (by decide) (by decide)).1

/-- C9: after any trace, the cached AC voltage equals the most recently
accepted 0x362 sample (or the construction default 0 when none), the
cached current likewise for 0x373; accepted samples lie in [150, 280] V
resp. [0.1, 40] A, so an accepted sample is never 0 and a nonzero cache
always traces back to an accepted sample of its own signal. -/
theorem C9_cache_invariant (tr : List Event) :
    (run tr).ac_voltage = (lastAccV tr).getD 0 ∧
    (run tr).ac_current = (lastAccA tr).getD 0 ∧
    (∀ v, lastAccV tr = some v → 150 ≤ v ∧ v ≤ 280) ∧
    (∀ v, lastAccA tr = some v → 1/10 ≤ v ∧ v ≤ 40) ∧
    ((run tr).ac_voltage ≠ 0 → ∃ e ∈ tr, (vSample e).isSome) ∧
    ((run tr).ac_current ≠ 0 → ∃ e ∈ tr, (aSample e).isSome) :=
  ⟨run_ac_voltage tr, run_ac_current tr, lastAccV_range tr, lastAccA_range tr,
   run_voltage_origin tr, run_current_origin tr⟩

/-- Witness for C9: after one accepted voltage frame the cache holds the
last accepted sample, 226 V. -/
theorem C9_cache_invariant_witness :
    (run [Event.can ⟨0x362, 8, [0x58, 0x48, 0, 0, 0, 0, 0, 0]⟩]).ac_voltage = 226 := by
  rw [(C9_cache_invariant [Event.can ⟨0x362, 8, [0x58, 0x48, 0, 0, 0, 0, 0, 0]⟩]).1]
  norm_num [lastAccV, vSample, vVolt, vRaw, byteAt, u16be, latch]

/-- C10: a VIN reply of length ≥ 1 overwrites the VIN metric with the
payload bytes verbatim, unconditionally, and changes nothing else; a
zero-length reply changes nothing. -/
theorem C10_vin_verbatim (s : St) (data : List ℕ) :
    (1 ≤ data.length →
      handlePoll s 0xF190 data
        = { s with m_vin := data.map fun b => b % 256,
                   log := Write.vin (data.map fun b => b % 256) :: s.log }) ∧
    (data.length = 0 → handlePoll s 0xF190 data = s) := by
  constructor
  · intro h
    rw [handlePoll_eqF190]
    simp only [handleF190, setVin]
    rw [if_pos h]
  · intro h
    rw [handlePoll_eqF190]
    simp only [handleF190]
    rw [if_neg (by omega)]

/-- Witness for C10: a two-byte VIN reply is copied verbatim from the
initial state. -/
theorem C10_vin_verbatim_witness :
    handlePoll initSt 0xF190 [76, 83]
      = { initSt with m_vin := [76, 83], log := [Write.vin [76, 83]] } := by
  have h := (C10_vin_verbatim initSt [76, 83]).1 (by decide)
  rw [h]
  rfl
